import Mathlib

/-!
Verification of the DRC-20 universal indexer core
(`src/indexer/drc20-indexer-public.ts` and the continuous-scan script
bundled with it).  The definitions below are a shallow embedding of the
JavaScript/TypeScript source and of the SQLite statements it issues:
pure functions become Lean functions, the SQLite database becomes an
explicit record of tables, and each `db.run` becomes a state
transformer.  Machine-integer behaviour of SQLite (`CAST(x AS INTEGER)`
and integer `SUM`) is modelled over `Int` with explicit clamping at the
signed 64-bit bounds.
-/

namespace DRC20

/-! ## JSON values

`JSON.parse` produces dynamically typed values; the indexer then reads
fields off them with JavaScript truthiness.  We embed the value space as
an inductive and field access as first-match lookup. -/

inductive Json where
  | null : Json
  | bool (b : Bool) : Json
  | num (n : Int) : Json
  | str (s : String) : Json
  | arr (elems : List Json) : Json
  | obj (fields : List (String × Json)) : Json

/-- Field access `parsed.f` on a JSON object: first binding wins,
anything that is not an object has no fields. -/
def Json.getField : Json → String → Option Json
  | .obj fields, k =>
    match fields.find? (fun p => p.1 == k) with
    | some p => some p.2
    | none => none
  | _, _ => none

/-- JavaScript truthiness of a field read (`data.op && data.tick`):
a missing field is `undefined` (falsy); `null`, `false`, `0` and the
empty string are falsy; everything else is truthy. -/
def jsTruthy : Option Json → Bool
  | none => false
  | some .null => false
  | some (.bool b) => b
  | some (.num n) => !(n == 0)
  | some (.str s) => !(s == "")
  | some (.arr _) => true
  | some (.obj _) => true

/-! ## The two payload recognizers in the source

`parseDRC20Json` (DRC20Indexer class) accepts a parsed object when
`parsed.p === 'drc20' && ['deploy', 'mint'].includes(parsed.op)`.

`parseDRC20FromHex` (continuous-scan script) accepts when
`data.p === 'drc-20' && data.op && data.tick`. -/

/-- JavaScript strict equality `x === 'lit'` of a field read against a
string literal: true exactly when the field is present, is a string,
and is that string. -/
def fieldIsStr (o : Option Json) (lit : String) : Bool :=
  match o with
  | some (.str s) => s == lit
  | _ => false

/-- Field-level acceptance test of `parseDRC20Json`: strict equality of
`p` with the string literal `'drc20'` and `op` strictly equal to
`'deploy'` or `'mint'`; on failure the function returns `null`
("not this protocol"). -/
def parseDRC20JsonCheck (parsed : Json) : Option Json :=
  if fieldIsStr (parsed.getField "p") "drc20" &&
      (fieldIsStr (parsed.getField "op") "deploy" ||
       fieldIsStr (parsed.getField "op") "mint") then
    some parsed
  else
    none

/-- Field-level acceptance test of `parseDRC20FromHex`: strict equality
of `p` with `'drc-20'` and truthiness of `op` and `tick`. -/
def parseDRC20FromHexCheck (data : Json) : Option Json :=
  if fieldIsStr (data.getField "p") "drc-20" &&
      jsTruthy (data.getField "op") &&
      jsTruthy (data.getField "tick") then
    some data
  else
    none

/-! ## Byte-level payload extraction

`parseDRC20FromHex` works on the output script as a hex string; two hex
characters are one byte.  If the script starts with `6a` (OP_RETURN) it
strips the opcode, reads the next byte: a value `<= 75` is a direct
push (strip one byte), the value `76` (`0x4c`, OP_PUSHDATA1) strips two
bytes, anything else returns `null`.  The remaining bytes — however many
there are, with no comparison against the declared push length and no
80-byte cap — are the payload handed to `JSON.parse`.  A script that
does not start with `6a` is passed through whole. -/

def extractPayloadBytes (script : List Nat) : Option (List Nat) :=
  match script with
  | 0x6a :: rest =>
    match rest with
    | len :: rest2 =>
      if len ≤ 75 then some rest2
      else if len = 76 then some (rest2.drop 1)
      else none
    | [] => none
  | _ => some script

example : extractPayloadBytes [0x6a, 2, 65, 66] = some [65, 66] := by decide
example : extractPayloadBytes [0x6a, 77, 65] = none := by decide
example : extractPayloadBytes [0x00, 65] = some [0x00, 65] := by decide

/-! ## The SQLite database

One row type per table the indexer creates in `createTables`, plus the
singleton `indexer_state` checkpoint.  Only the columns the embedded
functions read or write are carried. -/

/-- A row of the `tokens` table.  `tick` is the PRIMARY KEY and
`deploy_txid` is UNIQUE, so `INSERT OR IGNORE` skips the insert when
either value is already present. -/
structure TokenRow where
  tick : String
  maxSupply : String
  mintLimit : String
  deployTxid : String
  deployBlock : Nat
deriving DecidableEq, Repr

/-- A row of the `transactions` table (`txid` UNIQUE). -/
structure TxRow where
  txid : String
  blockHeight : Nat
  blockHash : String
  operation : String
  tick : String
  amount : String
  rawJson : String
  isBlackdoge : Bool
  isValid : Bool
deriving DecidableEq, Repr

/-- A row of the `site_transactions` table. -/
structure SiteTxRow where
  txid : String
  tick : String
  amount : String
  operation : String
  userAddress : String
deriving DecidableEq, Repr

/-- A row of the `balances` table. -/
structure BalanceRow where
  address : String
  tick : String
  balance : String
deriving DecidableEq, Repr

/-- A row of the `verification_stats` table. -/
structure VerificationRow where
  tick : String
  siteCount : Nat
  blockchainCount : Nat
  isVerified : Bool
deriving DecidableEq, Repr

/-- The indexer database: the five tables plus the singleton
`indexer_state` row (`last_block_height`, `last_block_hash`). -/
structure Db where
  tokens : List TokenRow
  transactions : List TxRow
  siteTransactions : List SiteTxRow
  balances : List BalanceRow
  verificationStats : List VerificationRow
  checkpoint : Option (Nat × String)
deriving DecidableEq, Repr

def emptyDb : Db :=
  { tokens := [], transactions := [], siteTransactions := [], balances := [],
    verificationStats := [], checkpoint := none }

/-! ## String helpers mirroring the JavaScript expressions -/

/-- `tick.toUpperCase()` on the character list of the string (ASCII
uppercasing, which is what the ticks in play use). -/
def jsToUpper (s : String) : String :=
  String.mk (s.data.map Char.toUpper)

/-- `x || '0'`: JavaScript string-or-default, where the empty string is
falsy and a missing field is `undefined` (falsy). -/
def jsOrZero : Option String → String
  | none => "0"
  | some s => if s == "" then "0" else s

/-! ## `saveTransaction` and block scanning

The continuous-scan script processes every null-data output of every
transaction of each block in order.  A decoded payload (fields `op`,
`tick` and optionally `max`/`lim`/`amt`) is handed to
`saveTransaction`, which issues `INSERT OR IGNORE` statements:

* `op === 'deploy'`: insert into `tokens`
  `(tick.toUpperCase(), max || '0', lim || '0', txid, blockHeight)`;
* `op === 'mint'` and `isTokenDeployed(tick)`: insert into
  `transactions` with `amount = amt || '0'`, `is_blackdoge_tx = 0`,
  `is_valid = 1`;
* anything else: no statement at all. -/

/-- The fields of a decoded DRC-20 payload that `saveTransaction`
reads. -/
structure Drc20Data where
  op : String
  tick : String
  max : Option String
  lim : Option String
  amt : Option String
deriving DecidableEq, Repr

/-- `isTokenDeployed(tick)`: `SELECT tick FROM tokens WHERE tick = ?`
with the uppercased tick. -/
def isTokenDeployed (db : Db) (tick : String) : Bool :=
  db.tokens.any (fun t => t.tick == jsToUpper tick)

/-- The `INSERT OR IGNORE INTO tokens` conflict test: `tick` is the
primary key and `deploy_txid` is unique. -/
def tokenConflict (db : Db) (tickU txid : String) : Bool :=
  db.tokens.any (fun t => t.tick == tickU || t.deployTxid == txid)

/-- The `INSERT OR IGNORE INTO transactions` conflict test: `txid` is
unique. -/
def txidPresent (db : Db) (txid : String) : Bool :=
  db.transactions.any (fun r => r.txid == txid)

/-- The `transactions` row written by `saveTransaction` for an accepted
mint: block hash and addresses are empty strings, `is_blackdoge_tx` is
0 and `is_valid` is 1. -/
def mintRow (blockHeight : Nat) (txid : String) (d : Drc20Data) : TxRow :=
  { txid := txid, blockHeight := blockHeight, blockHash := "",
    operation := d.op, tick := jsToUpper d.tick, amount := jsOrZero d.amt,
    rawJson := "", isBlackdoge := false, isValid := true }

/-- The `tokens` row written by `saveTransaction` for a deploy:
uppercased tick, supply fields defaulted through `|| '0'`, empty deploy
address. -/
def newTokenRow (blockHeight : Nat) (txid : String) (d : Drc20Data) : TokenRow :=
  { tick := jsToUpper d.tick, maxSupply := jsOrZero d.max,
    mintLimit := jsOrZero d.lim, deployTxid := txid,
    deployBlock := blockHeight }

/-- `saveTransaction(blockHeight, txid, drc20Data, _)` as a state
transformer on the database. -/
def saveTransaction (db : Db) (blockHeight : Nat) (txid : String) (d : Drc20Data) : Db :=
  if d.op == "deploy" then
    if tokenConflict db (jsToUpper d.tick) txid then db
    else { db with tokens := db.tokens ++ [newTokenRow blockHeight txid d] }
  else if d.op == "mint" && isTokenDeployed db d.tick then
    if txidPresent db txid then db
    else { db with transactions := db.transactions ++ [mintRow blockHeight txid d] }
  else
    db

/-- One decoded payload met during the scan, with the position data
`saveTransaction` receives. -/
structure ScanItem where
  blockHeight : Nat
  txid : String
  data : Drc20Data
deriving DecidableEq, Repr

/-- Left-to-right processing of the decoded payloads of a scanned
range, exactly the order `scanBlockRange` visits them. -/
def processItems (db : Db) (items : List ScanItem) : Db :=
  items.foldl (fun s i => saveTransaction s i.blockHeight i.txid i.data) db

/-- A block as returned by the chain data source: its own hash, its
declared previous hash, and the decoded payloads it carries in order.
The scan never reads `previousHash`. -/
structure Block where
  hash : String
  previousHash : String
  items : List ScanItem
deriving DecidableEq, Repr

/-- `scanBlockRange`: blocks processed in order; the per-block
`previousHash` is never consulted. -/
def scanRange (db : Db) (blocks : List Block) : Db :=
  blocks.foldl (fun s b => processItems s b.items) db

/-- `updateLastProcessedBlock(height)` of the scan script: a separate
`INSERT OR REPLACE INTO indexer_state` statement run after the whole
range, storing an empty hash. -/
def updateLastProcessedBlock (db : Db) (height : Nat) : Db :=
  { db with checkpoint := some (height, "") }

/-- A full catch-up pass (`initialScan` / one `continuousMonitoring`
iteration): scan the range, then advance the checkpoint in a second,
separate statement. -/
def runScanSession (db : Db) (blocks : List Block) (endHeight : Nat) : Db :=
  updateLastProcessedBlock (scanRange db blocks) endHeight

/-! ## Reconciliation: `getTransactionCounts` / `verifyTransactionCounts`

`getTransactionCounts()` runs two `GROUP BY tick` counts — one over
`site_transactions`, one over `transactions WHERE is_blackdoge_tx = 1` —
and merges them into one object: site ticks enter first with blockchain
count 0, then blockchain ticks fill in or append.
`verifyTransactionCounts()` walks the merged object and inserts one
`verification_stats` row per tick with
`is_verified = (site === blockchain)`. -/

/-- `GROUP BY tick` over a list of ticks: distinct keys with their
multiplicities, keyed in first-occurrence order. -/
def groupCount (ticks : List String) : List (String × Nat) :=
  (ticks.foldl (fun acc t =>
    if acc.any (fun p => p.1 == t) then
      acc.map (fun p => if p.1 == t then (p.1, p.2 + 1) else p)
    else acc ++ [(t, 1)]) [])

/-- Merge of the two grouped counts, mirroring the two `for` loops of
`getTransactionCounts`: (tick, site count, blockchain count). -/
def mergeCounts (site chain : List (String × Nat)) : List (String × Nat × Nat) :=
  site.map (fun p =>
      (p.1, p.2, ((chain.find? (fun q => q.1 == p.1)).map Prod.snd).getD 0))
    ++ (chain.filter (fun q => !site.any (fun p => p.1 == q.1))).map
        (fun q => (q.1, 0, q.2))

/-- `getTransactionCounts()` with no tick filter, as used by
`verifyTransactionCounts`. -/
def getTransactionCounts (db : Db) : List (String × Nat × Nat) :=
  mergeCounts
    (groupCount (db.siteTransactions.map (fun r => r.tick)))
    (groupCount ((db.transactions.filter (fun r => r.isBlackdoge)).map (fun r => r.tick)))

/-- The `verification_stats` row inserted for one tick of the merged
counts. -/
def verificationRowOf (c : String × Nat × Nat) : VerificationRow :=
  { tick := c.1, siteCount := c.2.1, blockchainCount := c.2.2,
    isVerified := c.2.1 == c.2.2 }

/-- `verifyTransactionCounts()`: returns the overall verdict and the
database after the per-tick `INSERT INTO verification_stats`
statements. -/
def verifyTransactionCounts (db : Db) : Bool × Db :=
  let recs := (getTransactionCounts db).map verificationRowOf
  (recs.all (fun r => r.isVerified),
   { db with verificationStats := db.verificationStats ++ recs })

/-! ## `getTokenStats` and SQLite integer arithmetic

`getTokenStats(tick)` runs
`SELECT COALESCE(SUM(CAST(amount AS INTEGER)), 0) ... WHERE tick = ?
AND operation = 'mint' AND is_valid = 1`.  SQLite stores INTEGER values
as signed 64-bit machine words: `CAST(text AS INTEGER)` takes the
longest leading integer prefix of the text (after optional whitespace
and sign) and clamps a value outside the signed 64-bit range to the
nearest bound, and integer `SUM` raises an overflow error — which the
surrounding `catch` turns into a `totalMinted` of 0 — whenever a
running sum leaves that range. -/

def int64Max : Int := 9223372036854775807

def int64Min : Int := -9223372036854775808

/-- ASCII decimal digit test (`'0' ≤ c ≤ '9'`). -/
def isDigitChar (c : Char) : Bool :=
  48 ≤ c.toNat && c.toNat ≤ 57

/-- Decimal value of the longest leading digit run, accumulator style;
stops at the first non-digit. -/
def digitsVal : List Char → Nat → Nat
  | [], acc => acc
  | c :: cs, acc =>
    if isDigitChar c then digitsVal cs (acc * 10 + (c.toNat - 48)) else acc

/-- Optional leading sign of the numeric text. -/
def splitSign (cs : List Char) : Bool × List Char :=
  match cs with
  | [] => (false, [])
  | c :: rest =>
    if c = '-' then (true, rest)
    else if c = '+' then (false, rest)
    else (false, c :: rest)

/-- Signed value of the split text: the digit run negated when the
sign was `-`. -/
def signedVal (p : Bool × List Char) : Int :=
  if p.1 then -(digitsVal p.2 0 : Nat) else (digitsVal p.2 0 : Nat)

/-- Clamping of an integer value to the signed 64-bit storage range. -/
def clampInt64 (v : Int) : Int :=
  if v > int64Max then int64Max
  else if v < int64Min then int64Min
  else v

/-- `CAST(s AS INTEGER)` of SQLite on a text value: skip leading
spaces, read an optional sign and the longest digit prefix, clamp to
the signed 64-bit range. -/
def sqliteCastInt (s : String) : Int :=
  clampInt64 (signedVal (splitSign (s.data.dropWhile (fun c => c == ' '))))

/-- One step of SQLite integer `SUM`: the running sum errors out (and
stays errored) as soon as it leaves the signed 64-bit range. -/
def addI64 (acc : Option Int) (x : Int) : Option Int :=
  match acc with
  | none => none
  | some a =>
    if int64Min ≤ a + x ∧ a + x ≤ int64Max then some (a + x) else none

/-- SQLite integer `SUM` over a column: `none` is the overflow error. -/
def sumInt64 (l : List Int) : Option Int :=
  l.foldl addI64 (some 0)

/-- The rows `getTokenStats` aggregates: valid mints of the uppercased
tick.  (The source's special `WOW` branch runs the identical query, so
no case split is needed.) -/
def validMintRows (db : Db) (tick : String) : List TxRow :=
  db.transactions.filter
    (fun r => r.tick == jsToUpper tick && r.operation == "mint" && r.isValid)

/-- `totalMinted` as computed by the `getTokenStats` query, before the
error handler. -/
def totalMintedQuery (db : Db) (tick : String) : Option Int :=
  sumInt64 ((validMintRows db tick).map (fun r => sqliteCastInt r.amount))

/-- `getTokenStats(tick).totalMinted`: the query result, with the
`catch`/`COALESCE` fallback to 0. -/
def getTokenStatsTotal (db : Db) (tick : String) : Int :=
  (totalMintedQuery db tick).getD 0

/-! ## The exact arbitrary-precision reading of the same data

The spec side: a base-10 non-negative integer string denotes a `Nat`,
and the minted supply of a tick is the exact unbounded sum of the
amounts of its valid mint rows. -/

/-- Exact reading of a canonical base-10 unsigned integer string:
defined only when the string is nonempty and all digits. -/
def decStrToNat? (s : String) : Option Nat :=
  if s.data ≠ [] ∧ s.data.all isDigitChar = true then
    some (digitsVal s.data 0)
  else
    none

/-- Exact arbitrary-precision sum of the amounts of a row list: `none`
when some amount is not a canonical decimal string. -/
def exactSumAmounts : List TxRow → Option Nat
  | [] => some 0
  | r :: rs =>
    match decStrToNat? r.amount, exactSumAmounts rs with
    | some n, some m => some (n + m)
    | _, _ => none

/-- The exact minted supply of a tick. -/
def exactMintedSupply (db : Db) (tick : String) : Option Nat :=
  exactSumAmounts (validMintRows db tick)

/-! ## Concrete fixtures used by the theorems -/

/-- A registered token: mint limit 1000, max supply 1000000 (the
Scenario B token of the spec). -/
def tokDOGE : TokenRow :=
  { tick := "DOGE", maxSupply := "1000000", mintLimit := "1000",
    deployTxid := "txd", deployBlock := 100 }

/-- A database holding exactly the registered DOGE token. -/
def dbDOGE : Db := { emptyDb with tokens := [tokDOGE] }

/-- A mint of 1500 DOGE, exceeding the mint limit of 1000. -/
def mint1500 : Drc20Data :=
  { op := "mint", tick := "DOGE", max := none, lim := none, amt := some "1500" }

/-- A well-formed mint of 10 DOGE. -/
def mintTen : Drc20Data :=
  { op := "mint", tick := "DOGE", max := none, lim := none, amt := some "10" }

/-- A deploy of the DOGE token. -/
def deployDOGE : Drc20Data :=
  { op := "deploy", tick := "DOGE", max := some "1000000", lim := some "1000",
    amt := none }

/-- A mint of a tick that is not registered. -/
def ghostMint : Drc20Data :=
  { op := "mint", tick := "GHOST", max := none, lim := none, amt := some "5" }

/-- A deploy payload with `max` and `lim` missing. -/
def deployNoMax : Drc20Data :=
  { op := "deploy", tick := "ABC", max := none, lim := none, amt := none }

/-- A mint payload with `amt` missing. -/
def mintNoAmt : Drc20Data :=
  { op := "mint", tick := "DOGE", max := none, lim := none, amt := none }

/-- A protocol mint exactly as the repository documents it: tag
`drc-20`, as also written by `recordSiteTransaction` and accepted by
`parseDRC20FromHex`. -/
def jMintDash : Json :=
  .obj [("p", .str "drc-20"), ("op", .str "mint"),
        ("tick", .str "DOG"), ("amt", .str "1")]

/-- A transfer payload with the tag `parseDRC20Json` itself expects. -/
def jTransfer : Json :=
  .obj [("p", .str "drc20"), ("op", .str "transfer"),
        ("tick", .str "DOG"), ("amt", .str "1")]

/-- A decoded deploy object with `max` and `lim` absent. -/
def jDeployNoMax : Json :=
  .obj [("p", .str "drc-20"), ("op", .str "deploy"), ("tick", .str "ABC")]

/-- A decoded mint of an unregistered tick. -/
def jGhost : Json :=
  .obj [("p", .str "drc-20"), ("op", .str "mint"),
        ("tick", .str "GHOST"), ("amt", .str "5")]

/-- An 81-byte payload (81 copies of the byte `A`). -/
def payload81 : List Nat := List.replicate 81 65

/-- A null-data script carrying the 81-byte payload through the
OP_PUSHDATA1 encoding: `6a 4c 51` followed by the payload. -/
def script81 : List Nat := 0x6a :: 0x4c :: 0x51 :: payload81

/-! ## Claim theorems -/

/-- C1: the spec says a mint whose amount exceeds the token's
`mintLimit` is rejected as ExceedsMintLimit (and one that would pass
`maxSupply` as SupplyExhausted) with the ledger left unchanged.  The
code has no such checks: `saveTransaction` records a mint of 1500
against a registered token whose mint limit is 1000 as a valid
transaction, mutating the ledger — there is also no `mintedSoFar`
tracking with which a SupplyExhausted check could even be phrased.
This evaluates the code at the failing input of Scenario B. -/
theorem overLimitMintRecordedValid :
    dbDOGE.tokens = [tokDOGE] ∧
    decStrToNat? tokDOGE.mintLimit = some 1000 ∧
    decStrToNat? (jsOrZero mint1500.amt) = some 1500 ∧
    1000 < 1500 ∧
    saveTransaction dbDOGE 101 "tx1" mint1500 =
      { dbDOGE with transactions := [mintRow 101 "tx1" mint1500] } ∧
    (mintRow 101 "tx1" mint1500).isValid = true ∧
    (mintRow 101 "tx1" mint1500).amount = "1500" := by
  refine ⟨rfl, by decide, by decide, by decide, by decide, rfl, rfl⟩

/-- C3: the claim says the decoder accepts exactly the objects whose
`p` equals the fixed protocol tag and whose `op` is one of deploy,
mint, transfer.  `parseDRC20Json` instead demands `p === 'drc20'`,
while the protocol tag fixed everywhere else in the repository — the
README payloads, `recordSiteTransaction`'s raw JSON, and the sibling
recognizer `parseDRC20FromHex` — is `'drc-20'`; and its `op` whitelist
is only `['deploy', 'mint']`.  So the documented protocol mint below is
classified "not this protocol" by `parseDRC20Json` although
`parseDRC20FromHex` accepts the very same object, and a transfer is
never accepted even under the tag `parseDRC20Json` itself expects. -/
theorem protocolTagMismatchRejected :
    parseDRC20JsonCheck jMintDash = none ∧
    parseDRC20FromHexCheck jMintDash = some jMintDash ∧
    parseDRC20JsonCheck jTransfer = none := by
  exact ⟨rfl, rfl, rfl⟩

/-- C4: the claim says the payload extractor yields a candidate only
for a null-data script with a supported push encoding and a payload of
at most 80 bytes, and in particular that an 81-byte payload is not a
candidate.  The code has no length check at all: from the script
`6a 4c 51` followed by 81 bytes, `parseDRC20FromHex` extracts the full
81-byte payload and hands it to `JSON.parse`; a script that does not
begin with the null-data opcode is not rejected either, but parsed
whole. -/
theorem oversizePayloadExtracted :
    extractPayloadBytes script81 = some payload81 ∧
    payload81.length = 81 ∧
    extractPayloadBytes [0x00, 65] = some [0x00, 65] := by
  refine ⟨by decide, by decide, by decide⟩

/-- C9: every run of `verifyTransactionCounts` appends one
`verification_stats` row per tick of the merged counts, each flagged
verified exactly when the site count equals the blockchain count, and
it leaves the tokens, balances, transactions, site transactions and
checkpoint untouched. -/
theorem reconciliationReadOnlyAndFlagged (db : Db) :
    (verifyTransactionCounts db).2.tokens = db.tokens ∧
    (verifyTransactionCounts db).2.balances = db.balances ∧
    (verifyTransactionCounts db).2.transactions = db.transactions ∧
    (verifyTransactionCounts db).2.siteTransactions = db.siteTransactions ∧
    (verifyTransactionCounts db).2.checkpoint = db.checkpoint ∧
    (verifyTransactionCounts db).2.verificationStats =
      db.verificationStats ++ (getTransactionCounts db).map verificationRowOf ∧
    ((getTransactionCounts db).map verificationRowOf).all
      (fun r => r.isVerified == (r.siteCount == r.blockchainCount)) = true := by
  refine ⟨rfl, rfl, rfl, rfl, rfl, rfl, ?_⟩
  simp only [List.all_eq_true, List.mem_map]
  rintro r ⟨c, _, rfl⟩
  simp [verificationRowOf]

/-- C5 counterexample: the claim says every operation that decodes as a
protocol payload but fails validation is recorded as an invalid
Operation with its rejection reason.  The payload below decodes
(`parseDRC20FromHex` accepts it) and fails validation (its tick is not
registered), yet `saveTransaction` leaves the database — including the
audit trail — completely unchanged: the rejected attempt is silently
dropped. -/
theorem invalidMintSilentlyDropped :
    parseDRC20FromHexCheck jGhost = some jGhost ∧
    isTokenDeployed emptyDb "GHOST" = false ∧
    saveTransaction emptyDb 100 "txg" ghostMint = emptyDb := by
  refine ⟨rfl, by decide, by decide⟩

/-- A scanned item for the registered DOGE token. -/
def itemMintTen : ScanItem := { blockHeight := 100, txid := "tx2", data := mintTen }

/-- A database whose checkpoint records hash `AAAA` at height 99. -/
def dbCkpt : Db := { dbDOGE with checkpoint := some (99, "AAAA") }

/-- A block at height 100 whose declared previous hash `BBBB` does not
match the checkpoint hash `AAAA`. -/
def blockMismatch : Block :=
  { hash := "H1", previousHash := "BBBB", items := [itemMintTen] }

/-- C6 counterexample: the claim says the scanner verifies the block's
declared previous-hash against the checkpoint's recorded hash and, on a
mismatch, halts with ReorgDetected instead of committing.  The code
never reads the previous hash: with the checkpoint recording hash
`AAAA`, a block declaring previous hash `BBBB` is processed and its
mint committed exactly as a matching block would be — the scan has no
ReorgDetected outcome at all. -/
theorem mismatchedPrevHashCommitted :
    dbCkpt.checkpoint = some (99, "AAAA") ∧
    blockMismatch.previousHash = "BBBB" ∧
    ("BBBB" == "AAAA") = false ∧
    scanRange dbCkpt [blockMismatch] =
      { dbCkpt with transactions := [mintRow 100 "tx2" mintTen] } := by
  refine ⟨rfl, rfl, by decide, by decide⟩

/-- The token row that the defaulting deploy produces: both supply
fields are the string `0`. -/
def tokABCDefaulted : TokenRow :=
  { tick := "ABC", maxSupply := "0", mintLimit := "0",
    deployTxid := "txd0", deployBlock := 50 }

/-- C7 counterexample: the claim says a recognized deploy without
base-10 `max`/`lim` fields, or a mint whose `amt` is not a positive
integer string, fails with MalformedPayload.  The decoder accepts a
deploy carrying no `max`/`lim` at all, and `saveTransaction` registers
the token with both values defaulted to the string `0` (for which
`lim ≤ max` is not even examined); a mint with no `amt` is likewise
recorded as a valid transaction of amount `0`. -/
theorem missingNumericFieldsAccepted :
    parseDRC20FromHexCheck jDeployNoMax = some jDeployNoMax ∧
    saveTransaction emptyDb 50 "txd0" deployNoMax =
      { emptyDb with tokens := [tokABCDefaulted] } ∧
    saveTransaction dbDOGE 102 "txm0" mintNoAmt =
      { dbDOGE with transactions := [mintRow 102 "txm0" mintNoAmt] } ∧
    (mintRow 102 "txm0" mintNoAmt).amount = "0" ∧
    (mintRow 102 "txm0" mintNoAmt).isValid = true := by
  refine ⟨rfl, by decide, by decide, by decide, rfl⟩

/-- A valid mint row whose amount, 2^63, lies just above the signed
64-bit range. -/
def rowBig : TxRow :=
  { txid := "txb", blockHeight := 100, blockHash := "", operation := "mint",
    tick := "DOGE", amount := "9223372036854775808", rawJson := "",
    isBlackdoge := false, isValid := true }

/-- A valid mint row whose amount is exactly the signed 64-bit
maximum. -/
def rowMax : TxRow :=
  { txid := "txc", blockHeight := 100, blockHash := "", operation := "mint",
    tick := "DOGE", amount := "9223372036854775807", rawJson := "",
    isBlackdoge := false, isValid := true }

/-- A second valid mint row at the signed 64-bit maximum. -/
def rowMax2 : TxRow := { rowMax with txid := "txe" }

/-- The ledger holding the single out-of-range mint. -/
def dbBig : Db := { dbDOGE with transactions := [rowBig] }

/-- The ledger holding two maximal in-range mints, whose exact sum
overflows a signed 64-bit accumulator. -/
def dbOverflow : Db := { dbDOGE with transactions := [rowMax, rowMax2] }

/-- C8 counterexample: the claim says supply arithmetic is exact over
unbounded-precision integers at any magnitude.  `getTokenStats` sums
`CAST(amount AS INTEGER)` in SQLite: a single valid mint of 2^63 is
clamped to 2^63 - 1, so the computed supply differs from the exact sum;
and two valid mints of 2^63 - 1 overflow the 64-bit SUM accumulator,
which the error handler turns into a reported supply of 0. -/
theorem supplySumClampedAtInt64 :
    getTokenStatsTotal dbBig "DOGE" = 9223372036854775807 ∧
    exactMintedSupply dbBig "DOGE" = some 9223372036854775808 ∧
    ((9223372036854775807 : Int) = ((9223372036854775808 : Nat) : Int)) = False ∧
    getTokenStatsTotal dbOverflow "DOGE" = 0 ∧
    exactMintedSupply dbOverflow "DOGE" = some 18446744073709551614 := by
  refine ⟨by decide, by decide, by decide, by decide, by decide⟩

/-- A scan list in which a mint of DOG precedes the deploy of DOG. -/
def itemsBad : List ScanItem :=
  [{ blockHeight := 100, txid := "txm1",
     data := { op := "mint", tick := "DOG", max := none, lim := none, amt := some "7" } },
   { blockHeight := 100, txid := "txd1",
     data := { op := "deploy", tick := "DOG", max := some "1000", lim := some "10", amt := none } }]

/-- A single block carrying the well-formed DOGE mint. -/
def blockOk : Block := { hash := "H2", previousHash := "AAAA", items := [itemMintTen] }

/-- C2 counterexample: the claim says replaying a block height a second
time yields the same ledger, and that the checkpoint advances
atomically with the block's ledger writes.  Both parts fail on the
code.  Replaying the scan list in which a mint of DOG precedes DOG's
deploy changes the ledger: on the first pass the mint is skipped
(unknown tick) and the deploy lands; on the replay the now-registered
tick lets the mint through, so twice differs from once.  And the
checkpoint is written by a separate later statement: after the ledger
writes of a scanned range have committed, the state still carries the
old checkpoint, diverging from the ledger until `runScanSession`'s
second statement runs. -/
theorem replayNotIdempotentAndCheckpointDiverges :
    processItems (processItems emptyDb itemsBad) itemsBad ≠
      processItems emptyDb itemsBad ∧
    (scanRange dbCkpt [blockOk]).transactions ≠ dbCkpt.transactions ∧
    (scanRange dbCkpt [blockOk]).checkpoint = dbCkpt.checkpoint ∧
    runScanSession dbCkpt [blockOk] 100 =
      updateLastProcessedBlock (scanRange dbCkpt [blockOk]) 100 := by
  refine ⟨by decide, by decide, by decide, rfl⟩

/-- C5 amended: a decoded operation that fails the one consensus check
the code has — a mint whose tick is unregistered — is silently dropped,
leaving the database untouched; and `saveTransaction` only ever leaves
the transactions table unchanged or appends the one mint row, which is
always marked valid.  Rejected protocol attempts therefore leave no
audit record at all. -/
theorem savedRowsAlwaysValid (db : Db) (h : Nat) (tx : String) (d : Drc20Data) :
    ((d.op == "deploy") = false → isTokenDeployed db d.tick = false →
      saveTransaction db h tx d = db) ∧
    ((saveTransaction db h tx d).transactions = db.transactions ∨
      (saveTransaction db h tx d).transactions =
        db.transactions ++ [mintRow h tx d]) ∧
    (mintRow h tx d).isValid = true := by
  refine ⟨?_, ?_, rfl⟩
  · intro hdep hmint
    simp [saveTransaction, hdep, hmint]
  · by_cases hdep : (d.op == "deploy") = true
    · by_cases hc : tokenConflict db (jsToUpper d.tick) tx = true
      · left; simp [saveTransaction, hdep, hc]
      · left; simp [saveTransaction, hdep, hc]
    · by_cases hm : (d.op == "mint" && isTokenDeployed db d.tick) = true
      · by_cases hp : txidPresent db tx = true
        · left; simp [saveTransaction, hdep, hm, hp]
        · right; simp [saveTransaction, hdep, hm, hp]
      · left; simp [saveTransaction, hdep, hm]

/-- C5 witness: the theorem applied to the decoded mint of an
unregistered tick, discharging its hypotheses at that input: the failed
operation leaves the database unchanged. -/
theorem savedRowsAlwaysValidWitness :
    saveTransaction emptyDb 100 "txg" ghostMint = emptyDb :=
  (savedRowsAlwaysValid emptyDb 100 "txg" ghostMint).1 (by decide) (by decide)

/-- C6 amended: the scanner performs no previous-hash continuity check
at all — the result of scanning a range is independent of every block's
declared previous hash, so a reorganized chain is processed and
committed exactly like a continuous one, and no ReorgDetected outcome
exists in the scan.  (The spec's own design notes flag reorganization
handling as absent from the source.) -/
theorem scanIgnoresPrevHash (db : Db) (blocks : List Block) (f : Block → String) :
    scanRange db (blocks.map (fun b => { b with previousHash := f b })) =
      scanRange db blocks := by
  induction blocks generalizing db with
  | nil => rfl
  | cons b rest ih =>
    simpa [scanRange] using ih (processItems db b.items)

/-- C7 amended: the decoder recognizes a payload solely by `p` being
exactly `drc-20` and by truthiness of `op` and `tick`; the numeric
fields are never validated.  A recognized deploy whose insert does not
conflict stores `max || '0'` and `lim || '0'` verbatim — missing or
empty values silently default to the string `0`, no base-10 or
`lim ≤ max` check is made, and no MalformedPayload failure kind exists
anywhere in the code. -/
theorem decoderChecksOnlyPresence :
    (∀ j : Json, (parseDRC20FromHexCheck j).isSome = true ↔
      (fieldIsStr (j.getField "p") "drc-20" = true ∧
       jsTruthy (j.getField "op") = true ∧
       jsTruthy (j.getField "tick") = true)) ∧
    (∀ (db : Db) (h : Nat) (tx : String) (d : Drc20Data),
      (d.op == "deploy") = true →
      tokenConflict db (jsToUpper d.tick) tx = false →
      saveTransaction db h tx d =
        { db with tokens := db.tokens ++
            [{ tick := jsToUpper d.tick, maxSupply := jsOrZero d.max,
               mintLimit := jsOrZero d.lim, deployTxid := tx,
               deployBlock := h }] }) := by
  constructor
  · intro j
    simp [parseDRC20FromHexCheck]
    tauto
  · intro db h tx d hdep hc
    simp [saveTransaction, newTokenRow, hdep, hc]

/-- C7 witness: the theorem applied to the deploy with missing numeric
fields, discharging both hypotheses there: the token is registered with
`max` and `lim` both defaulted to the string `0`. -/
theorem decoderChecksOnlyPresenceWitness :
    saveTransaction emptyDb 50 "txd0" deployNoMax =
      { emptyDb with tokens := [{ tick := jsToUpper deployNoMax.tick,
                                  maxSupply := jsOrZero deployNoMax.max,
                                  mintLimit := jsOrZero deployNoMax.lim,
                                  deployTxid := "txd0",
                                  deployBlock := 50 }] } :=
  decoderChecksOnlyPresence.2 emptyDb 50 "txd0" deployNoMax (by decide) (by decide)

/-! ## Exactness of the supply sum within the 64-bit range -/

lemma digit_ne_space {c : Char} (h : isDigitChar c = true) : (c == ' ') = false := by
  rcases hb : (c == ' ') with _ | _
  · rfl
  · have : c = ' ' := by exact eq_of_beq hb
    subst this
    exact absurd h (by decide)

lemma digit_ne_minus {c : Char} (h : isDigitChar c = true) : ¬ c = '-' := by
  intro hc
  subst hc
  exact absurd h (by decide)

lemma digit_ne_plus {c : Char} (h : isDigitChar c = true) : ¬ c = '+' := by
  intro hc
  subst hc
  exact absurd h (by decide)

/-- On a nonempty all-digit string whose value fits, the SQLite cast
reads off exactly the decimal value. -/
lemma sqliteCastInt_of_digits (s : String) (n : Nat)
    (hd : decStrToNat? s = some n) (hle : (n : Int) ≤ int64Max) :
    sqliteCastInt s = (n : Int) := by
  unfold decStrToNat? at hd
  split at hd
  case isFalse => exact absurd hd (by simp)
  case isTrue hcond =>
    obtain ⟨hne, hall⟩ := hcond
    have hn : digitsVal s.data 0 = n := Option.some.inj hd
    obtain ⟨c, cs, hcs⟩ := List.exists_cons_of_ne_nil hne
    rw [hcs] at hall hn
    have hdig : isDigitChar c = true := by
      have hc := hall
      simp only [List.all_cons, Bool.and_eq_true] at hc
      exact hc.1
    have hdrop : (c :: cs).dropWhile (fun x => x == ' ') = c :: cs := by
      rw [List.dropWhile_cons, digit_ne_space hdig]
      simp
    have hsplit : splitSign (c :: cs) = (false, c :: cs) := by
      show (if c = '-' then ((true : Bool), cs)
            else if c = '+' then ((false : Bool), cs)
            else ((false : Bool), c :: cs)) = (false, c :: cs)
      rw [if_neg (digit_ne_minus hdig), if_neg (digit_ne_plus hdig)]
    unfold sqliteCastInt
    rw [hcs, hdrop, hsplit]
    unfold signedVal clampInt64
    simp only [if_false, Bool.false_eq_true, ite_false, hn]
    have h0 : (0 : Int) ≤ (n : Int) := Int.natCast_nonneg n
    rw [if_neg (by omega), if_neg (by simp only [int64Min]; omega)]

/-- The 64-bit running SUM computes the exact total of a row list whose
amounts are canonical decimals, as long as the grand total stays within
the signed 64-bit range. -/
lemma sumExactAux : ∀ (l : List TxRow) (a : Int) (N : Nat), 0 ≤ a →
    exactSumAmounts l = some N → a + (N : Int) ≤ int64Max →
    List.foldl (fun acc r => addI64 acc (sqliteCastInt r.amount)) (some a) l =
      some (a + (N : Int)) := by
  intro l
  induction l with
  | nil =>
    intro a N _ hE _
    have : N = 0 := by simpa [exactSumAmounts] using hE.symm
    subst this
    simp
  | cons r rs ih =>
    intro a N ha hE hb
    cases hd : decStrToNat? r.amount with
    | none => rw [exactSumAmounts, hd] at hE; exact absurd hE (by simp)
    | some n =>
      cases he : exactSumAmounts rs with
      | none => rw [exactSumAmounts, hd, he] at hE; exact absurd hE (by simp)
      | some m =>
        have hNm : N = n + m := by
          rw [exactSumAmounts, hd, he] at hE
          exact (Option.some.inj hE).symm
        subst hNm
        have hmax : (int64Max : Int) = 9223372036854775807 := rfl
        have hcast : a + ((n + m : Nat) : Int) ≤ 9223372036854775807 := by
          rw [← hmax]; exact hb
        have hnm : (0 : Int) ≤ (n : Int) ∧ (0 : Int) ≤ (m : Int) :=
          ⟨Int.natCast_nonneg n, Int.natCast_nonneg m⟩
        have hnle : (n : Int) ≤ int64Max := by
          rw [hmax]; push_cast at hcast; omega
        rw [List.foldl_cons, sqliteCastInt_of_digits r.amount n hd hnle]
        have haddi : addI64 (some a) (n : Int) = some (a + (n : Int)) := by
          show (if int64Min ≤ a + (n : Int) ∧ a + (n : Int) ≤ int64Max then
                  some (a + (n : Int)) else none) = some (a + (n : Int))
          rw [if_pos]
          constructor
          · simp only [int64Min]; push_cast at hcast; omega
          · rw [hmax]; push_cast at hcast; omega
        rw [haddi]
        have hrec := ih (a + (n : Int)) m (by push_cast at hcast; omega) he
          (by rw [hmax]; push_cast at hcast ⊢; omega)
        rw [hrec]
        congr 1
        push_cast
        ring

/-- C8 amended: `getTokenStats` computes the minted supply with SQLite
64-bit integer arithmetic, so it equals the exact arbitrary-precision
sum of the valid mint amounts exactly on the bounded fragment: whenever
every amount is a canonical base-10 string and the exact total is at
most 2^63 - 1.  Beyond that range the cast clamps and the sum
overflows, so the computation is not unbounded-precision. -/
theorem totalMintedExactWhenInRange (db : Db) (tick : String) (N : Nat)
    (h1 : exactMintedSupply db tick = some N) (h2 : (N : Int) ≤ int64Max) :
    getTokenStatsTotal db tick = (N : Int) := by
  unfold getTokenStatsTotal totalMintedQuery sumInt64
  rw [List.foldl_map]
  have hrun := sumExactAux (validMintRows db tick) 0 N le_rfl h1 (by simpa using h2)
  rw [hrun]
  simp

/-- The ledger holding a single valid DOGE mint of amount 100. -/
def dbHundred : Db :=
  { dbDOGE with transactions :=
      [{ txid := "txh", blockHeight := 100, blockHash := "",
         operation := "mint", tick := "DOGE", amount := "100", rawJson := "",
         isBlackdoge := false, isValid := true }] }

/-- C8 witness: the theorem applied to the one-mint ledger, discharging
both hypotheses there: the reported supply is the exact 100. -/
theorem totalMintedExactWitness :
    getTokenStatsTotal dbHundred "DOGE" = ((100 : Nat) : Int) :=
  totalMintedExactWhenInRange dbHundred "DOGE" 100 (by decide) (by decide)

/-! ## Conditional idempotence of replaying a scanned range

`INSERT OR IGNORE` on the unique keys (tick/deploy txid for tokens,
txid for transactions) makes re-running the saves a no-op — except that
the mint branch consults `isTokenDeployed` against the live state, so a
mint that was skipped on the first pass because its deploy came later
in the very same range does land on the replay.  The guard below rules
exactly that out. -/

/-- Key-growth order on databases: every token row and transaction row
of the first is present in the second. -/
def dbLE (s S : Db) : Prop :=
  s.tokens ⊆ S.tokens ∧ s.transactions ⊆ S.transactions

lemma dbLE_refl (s : Db) : dbLE s s :=
  ⟨List.Subset.refl _, List.Subset.refl _⟩

lemma dbLE_trans {s t u : Db} (h1 : dbLE s t) (h2 : dbLE t u) : dbLE s u :=
  ⟨List.Subset.trans h1.1 h2.1, List.Subset.trans h1.2 h2.2⟩

lemma dbLE_save (db : Db) (h : Nat) (tx : String) (d : Drc20Data) :
    dbLE db (saveTransaction db h tx d) := by
  unfold saveTransaction
  split_ifs <;>
    first
      | exact dbLE_refl _
      | exact ⟨List.subset_append_left _ _, List.Subset.refl _⟩
      | exact ⟨List.Subset.refl _, List.subset_append_left _ _⟩

lemma dbLE_processItems : ∀ (items : List ScanItem) (db : Db),
    dbLE db (processItems db items) := by
  intro items
  induction items with
  | nil => intro db; exact dbLE_refl db
  | cons i rest ih =>
    intro db
    exact dbLE_trans (dbLE_save db i.blockHeight i.txid i.data)
      (ih (saveTransaction db i.blockHeight i.txid i.data))

/-- The replay guard: walking the first pass, every mint whose tick is
registered in the final state was already registered when the mint was
first processed.  A mint that precedes its own tick's deploy within the
range violates this. -/
def mintsGuarded (S : Db) : Db → List ScanItem → Bool
  | _, [] => true
  | s, i :: rest =>
    (!(i.data.op == "mint" && isTokenDeployed S i.data.tick) ||
        isTokenDeployed s i.data.tick) &&
      mintsGuarded S (saveTransaction s i.blockHeight i.txid i.data) rest

/-- Re-running one save against a state that already absorbed the whole
first pass is a no-op. -/
lemma save_absorb (s S : Db) (h : Nat) (tx : String) (d : Drc20Data)
    (h1 : dbLE s S) (h2 : dbLE (saveTransaction s h tx d) S)
    (hm : (d.op == "mint") = true → isTokenDeployed S d.tick = true →
      isTokenDeployed s d.tick = true) :
    saveTransaction S h tx d = S := by
  by_cases hdep : (d.op == "deploy") = true
  · have hconf : tokenConflict S (jsToUpper d.tick) tx = true := by
      by_cases hc : tokenConflict s (jsToUpper d.tick) tx = true
      · obtain ⟨t, htmem, htp⟩ := List.any_eq_true.mp hc
        exact List.any_eq_true.mpr ⟨t, h1.1 htmem, htp⟩
      · have hsave : (saveTransaction s h tx d).tokens =
            s.tokens ++ [newTokenRow h tx d] := by
          simp [saveTransaction, hdep, hc]
        have hmem : newTokenRow h tx d ∈ S.tokens := by
          apply h2.1
          rw [hsave]
          simp
        exact List.any_eq_true.mpr ⟨_, hmem, by simp [newTokenRow]⟩
    simp [saveTransaction, hdep, hconf]
  · by_cases hmint : (d.op == "mint" && isTokenDeployed S d.tick) = true
    · have hmint' := hmint
      rw [Bool.and_eq_true] at hmint'
      obtain ⟨hop, hSdep⟩ := hmint'
      have hsdep : isTokenDeployed s d.tick = true := hm hop hSdep
      have hpres : txidPresent S tx = true := by
        by_cases hp : txidPresent s tx = true
        · obtain ⟨r, hrmem, hrp⟩ := List.any_eq_true.mp hp
          exact List.any_eq_true.mpr ⟨r, h1.2 hrmem, hrp⟩
        · have hsave : (saveTransaction s h tx d).transactions =
              s.transactions ++ [mintRow h tx d] := by
            simp [saveTransaction, hdep, hop, hsdep, hp]
          have hmem : mintRow h tx d ∈ S.transactions := by
            apply h2.2
            rw [hsave]
            simp
          exact List.any_eq_true.mpr ⟨_, hmem, by simp [mintRow]⟩
      simp [saveTransaction, hdep, hmint, hpres]
    · simp [saveTransaction, hdep, hmint]

/-- Replaying a guarded range against its own final state is the
identity. -/
lemma replay_aux : ∀ (items : List ScanItem) (s S : Db),
    processItems s items = S → dbLE s S → mintsGuarded S s items = true →
    processItems S items = S := by
  intro items
  induction items with
  | nil => intro s S _ _ _; rfl
  | cons i rest ih =>
    intro s S hchain hle hg
    have hchain' : processItems
        (saveTransaction s i.blockHeight i.txid i.data) rest = S := hchain
    have hg' := hg
    rw [mintsGuarded, Bool.and_eq_true] at hg'
    obtain ⟨hhead, hrest⟩ := hg'
    have hle1 : dbLE (saveTransaction s i.blockHeight i.txid i.data) S := by
      rw [← hchain']
      exact dbLE_processItems rest _
    have hm : (i.data.op == "mint") = true →
        isTokenDeployed S i.data.tick = true →
        isTokenDeployed s i.data.tick = true := by
      intro hop hS
      have hh := hhead
      simp only [hop, hS, Bool.and_self, Bool.not_true, Bool.false_or] at hh
      exact hh
    have habs : saveTransaction S i.blockHeight i.txid i.data = S :=
      save_absorb s S i.blockHeight i.txid i.data hle hle1 hm
    show processItems (saveTransaction S i.blockHeight i.txid i.data) rest = S
    rw [habs]
    exact ih (saveTransaction s i.blockHeight i.txid i.data) S hchain' hle1 hrest

/-- C2 amended: re-running the saves of an already-committed range
leaves the ledger unchanged — the inserts are `INSERT OR IGNORE` on the
unique tick/txid keys — provided the range satisfies the replay guard:
no mint whose tick ends up registered was processed before its tick was
registered (in particular, no mint precedes its own tick's deploy
within the range).  Without the guard a replay can differ, and the
checkpoint is advanced by a separate statement after the saves rather
than in the same transaction, so a crash between the two leaves
checkpoint and ledger diverged until the idempotent (not impossible)
re-run. -/
theorem replayIdempotentWhenMintsGuarded (db : Db) (items : List ScanItem)
    (h : mintsGuarded (processItems db items) db items = true) :
    processItems (processItems db items) items = processItems db items :=
  replay_aux items db (processItems db items) rfl (dbLE_processItems items db) h

/-- The well-ordered scan list: the DOGE deploy followed by a DOGE
mint. -/
def itemsGood : List ScanItem :=
  [{ blockHeight := 100, txid := "txd", data := deployDOGE },
   { blockHeight := 100, txid := "txm", data := mintTen }]

/-- C2 witness: the theorem applied to the deploy-then-mint range,
discharging the guard there: the replay is the identity. -/
theorem replayIdempotentWitness :
    processItems (processItems emptyDb itemsGood) itemsGood =
      processItems emptyDb itemsGood :=
  replayIdempotentWhenMintsGuarded emptyDb itemsGood (by decide)

end DRC20
